import Mathlib

/-!
# SimpleHub — verification of the snapshot/diff/check-in/notification core

Shallow embedding of the SimpleHub server core (`src/server/src/run.js`,
`src/server/src/checkin.js`, `src/server/src/notifier.js`, the scheduler in
the same bundle, and the secrets codec `crypto.js`) in Lean 4, together with
theorems settling the frozen specification claims.

Modelling conventions, applied throughout:
* JavaScript numbers used as money amounts are modelled as `ℚ`; timestamps
  (`Date.now() / 1000`) are modelled as a `Nat` parameter `now`.
* Network calls (`fetch`, Resend) are modelled by passing their outcome as an
  explicit argument; the row store (Prisma) is modelled as an explicit `Store`
  value threaded through the functions.
* JS `null`/`undefined` are both modelled as `Option.none`; JS string
  truthiness (`""` falsy) is modelled by `truthyS`.
* `String.prototype.localeCompare` is modelled as the lexicographic order on
  `String`.
-/

deriving instance DecidableEq for Except

namespace SimpleHub

/-- The canonical per-model record produced by `normalizeModels` /
`fetchModelsNewapi` (`run.js`).  `none` in an `Option` field models a JS
`undefined` value, which `JSON.stringify` omits from the serialized object. -/
structure Model where
  id : String
  object : String
  owned_by : String
  permission : Option String
  created : Nat
  root : Option String
  parent : Option String
  vtype : Option String
deriving DecidableEq, Repr

/-- A raw upstream model object, before normalization (`run.js` lines 17-37).
Fields model the JS properties read by `normalizeModels`; `permission` stands
for the (arbitrary JSON) permission payload, carried through opaquely.
`vtype` models the `type` property: `some` = present and defined,
`none` = absent or `undefined` (both serialize identically). -/
structure RawObj where
  id : Option String
  model : Option String
  object : Option String
  owned_by : Option String
  ownedBy : Option String
  permission : Option String
  created : Option Nat
  root : Option String
  parent : Option String
  vtype : Option String
deriving DecidableEq, Repr

/-- A raw upstream model entry: newapi/veloera return bare strings, other
dialects return objects. -/
inductive RawModel where
  | str (s : String)
  | obj (o : RawObj)
deriving DecidableEq, Repr

/-- JS truthiness of a possibly-absent string: `undefined`/`null` and `""`
are falsy, every other string truthy. -/
def truthyS : Option String → Bool
  | some s => !(s == "")
  | none => false

/-- `m.id || m.model || m` (`run.js` line 29).  In the degenerate case where
both properties are falsy the source stores the raw object itself as the id;
its string coercion is `"[object Object]"`, which is how we model it (no
theorem or counterexample below exercises that corner). -/
def rawObjId (o : RawObj) : String :=
  if truthyS o.id then o.id.getD ""
  else if truthyS o.model then o.model.getD ""
  else "[object Object]"

/-- Normalization of one raw entry (`run.js` lines 18-37).  `now` models
`Date.now() / 1000` at the time of the call. -/
def normalizeOne (now : Nat) : RawModel → Model
  | .str s =>
      { id := s, object := "model", owned_by := "unknown", permission := none
        created := now, root := none, parent := none, vtype := none }
  | .obj o =>
      { id := rawObjId o
        object := if truthyS o.object then o.object.getD "" else "model"
        owned_by :=
          if truthyS o.owned_by then o.owned_by.getD ""
          else if truthyS o.ownedBy then o.ownedBy.getD "" else "unknown"
        permission := o.permission
        created := match o.created with
          | some c => if c = 0 then now else c
          | none => now
        root := o.root
        parent := o.parent
        vtype := o.vtype }

/-- Lexicographic `≤` on character lists, comparing code points. -/
def charListLe : List Char → List Char → Bool
  | [], _ => true
  | _ :: _, [] => false
  | a :: as, b :: bs =>
      if a.toNat < b.toNat then true
      else if b.toNat < a.toNat then false
      else charListLe as bs

/-- Lexicographic `≤` on strings. -/
def idLe (s t : String) : Bool := charListLe s.data t.data

theorem charToNat_inj {a b : Char} (h : a.toNat = b.toNat) : a = b := by
  have ha := Char.ofNat_toNat a
  rw [← ha, h, Char.ofNat_toNat]

theorem charListLe_cons (a b : Char) (as bs : List Char) :
    charListLe (a :: as) (b :: bs) = true ↔
      a.toNat < b.toNat ∨ (a.toNat = b.toNat ∧ charListLe as bs = true) := by
  simp only [charListLe]
  split
  · rename_i h1
    exact iff_of_true rfl (Or.inl h1)
  · rename_i h1
    split
    · rename_i h2
      refine iff_of_false (by simp) ?_
      rintro (h | ⟨h, _⟩) <;> omega
    · rename_i h2
      constructor
      · intro h
        exact Or.inr ⟨by omega, h⟩
      · rintro (h | ⟨_, h⟩)
        · omega
        · exact h

theorem charListLe_total : ∀ s t : List Char,
    charListLe s t = true ∨ charListLe t s = true
  | [], _ => .inl rfl
  | _ :: _, [] => .inr rfl
  | a :: as, b :: bs => by
    rw [charListLe_cons, charListLe_cons]
    rcases Nat.lt_trichotomy a.toNat b.toNat with h | h | h
    · exact .inl (.inl h)
    · rcases charListLe_total as bs with ih | ih
      · exact .inl (.inr ⟨h, ih⟩)
      · exact .inr (.inr ⟨h.symm, ih⟩)
    · exact .inr (.inl h)

theorem charListLe_trans : ∀ s t u : List Char,
    charListLe s t = true → charListLe t u = true → charListLe s u = true
  | [], _, _, _, _ => rfl
  | _ :: _, [], _, h₁, _ => by simp [charListLe] at h₁
  | _ :: _, _ :: _, [], _, h₂ => by simp [charListLe] at h₂
  | a :: as, b :: bs, c :: cs, h₁, h₂ => by
    rw [charListLe_cons] at h₁ h₂ ⊢
    rcases h₁ with h₁ | ⟨e₁, h₁⟩
    · rcases h₂ with h₂ | ⟨e₂, _⟩
      · exact .inl (by omega)
      · exact .inl (by omega)
    · rcases h₂ with h₂ | ⟨e₂, h₂⟩
      · exact .inl (by omega)
      · exact .inr ⟨by omega, charListLe_trans as bs cs h₁ h₂⟩

theorem charListLe_antisymm : ∀ s t : List Char,
    charListLe s t = true → charListLe t s = true → s = t
  | [], [], _, _ => rfl
  | [], _ :: _, _, h₂ => by simp [charListLe] at h₂
  | _ :: _, [], h₁, _ => by simp [charListLe] at h₁
  | a :: as, b :: bs, h₁, h₂ => by
    rw [charListLe_cons] at h₁ h₂
    have hab : a.toNat = b.toNat := by
      rcases h₁ with h₁ | ⟨e₁, _⟩ <;> rcases h₂ with h₂ | ⟨e₂, _⟩ <;> omega
    have hab' : a = b := charToNat_inj hab
    subst hab'
    rcases h₁ with h₁ | ⟨_, h₁⟩
    · omega
    · rcases h₂ with h₂ | ⟨_, h₂⟩
      · omega
      · rw [charListLe_antisymm as bs h₁ h₂]

theorem idLe_antisymm {s t : String} (h₁ : idLe s t = true)
    (h₂ : idLe t s = true) : s = t := by
  cases s; cases t
  exact congrArg String.mk (charListLe_antisymm _ _ h₁ h₂)

/-- The sort comparator of `run.js` line 39:
`String(a.id || '').localeCompare(String(b.id || ''))`, modelled as the
lexicographic code-point order on the id strings (the actual collation is
locale-dependent; any consistent total order yields the same analysis). -/
def modelLe (a b : Model) : Prop := idLe a.id b.id = true

instance instDecRelModelLe : DecidableRel modelLe := fun a b =>
  inferInstanceAs (Decidable (idLe a.id b.id = true))

instance : IsTotal Model modelLe :=
  ⟨fun a b => charListLe_total a.id.data b.id.data⟩

instance : IsTrans Model modelLe :=
  ⟨fun _ b _ h₁ h₂ => charListLe_trans _ b.id.data _ h₁ h₂⟩

/-- `normalizeModels` (`run.js` lines 14-41) on an already-extracted array:
map each entry to the canonical shape, then sort ascending by id.  JS
`Array.prototype.sort` with a consistent comparator is a stable sort, which
insertion sort implements.  (The unwrapping of `response.data` vs. a bare
array, lines 15-16, is the identity on our already-array inputs.) -/
def normalizeModels (now : Nat) (arr : List RawModel) : List Model :=
  List.insertionSort modelLe (arr.map (normalizeOne now))

/-- JSON string literal (escaping of special characters elided; no input used
below contains characters needing escapes). -/
def jsonStr (s : String) : String := "\"" ++ s ++ "\""

/-- One optional key-value pair as serialized by `JSON.stringify`: omitted
entirely when the value is `undefined`. -/
def jsonOptField (key : String) (v : Option String) : String :=
  match v with
  | none => ""
  | some s => "," ++ jsonStr key ++ ":" ++ jsonStr s

/-- `JSON.stringify` of one canonical model record, with the key order of the
object literals in `run.js` (id, object, owned_by, permission, created, root,
parent, type) and `undefined`-valued keys omitted. -/
def jsonOfModel (m : Model) : String :=
  "\x7b" ++ jsonStr "id" ++ ":" ++ jsonStr m.id
    ++ "," ++ jsonStr "object" ++ ":" ++ jsonStr m.object
    ++ "," ++ jsonStr "owned_by" ++ ":" ++ jsonStr m.owned_by
    ++ jsonOptField "permission" m.permission
    ++ "," ++ jsonStr "created" ++ ":" ++ toString m.created
    ++ jsonOptField "root" m.root
    ++ jsonOptField "parent" m.parent
    ++ jsonOptField "type" m.vtype
    ++ "\x7d"

/-- The canonical JSON encoding of a model list, i.e. `JSON.stringify(models)`.
`hashModels` (`run.js` lines 43-46) is the SHA-256 hex digest of exactly this
string; SHA-256 being a deterministic function of its input (and assumed
collision-resistant), we reason about the digest through its preimage. -/
def hashModels (models : List Model) : String :=
  "[" ++ String.intercalate "," (models.map jsonOfModel) ++ "]"

/-- The model-mapping step of `fetchModelsNewapi` (`run.js` lines 104-119):
maps `json.data` to the canonical shape with the variant's provider name.
Note: unlike `normalizeModels`, this function does NOT sort the result. -/
def fetchModelsNewapiMap (apiType : String) (now : Nat) (data : List RawModel) :
    List Model :=
  data.map fun m => match m with
    | .str s =>
        { id := s, object := "model"
          owned_by := if apiType = "newapi" then "new-api" else "veloera"
          permission := none, created := now, root := none, parent := none
          vtype := none }
    | .obj o =>
        { id := rawObjId o, object := "model"
          owned_by :=
            if truthyS o.owned_by then o.owned_by.getD ""
            else if apiType = "newapi" then "new-api" else "veloera"
          permission := none, created := now, root := none, parent := none
          vtype := none }

/-! ## Snapshot & diff engine: `computeDiff` (`run.js` lines 48-63) -/

/-- An association list modelling a JS `Map` built by insertion: keys appear
in first-insertion order, a repeated `set` overwrites the value in place. -/
def mapSet (m : List (String × Model)) (k : String) (v : Model) :
    List (String × Model) :=
  if m.any (fun p => p.1 == k) then
    m.map (fun p => if p.1 = k then (k, v) else p)
  else m ++ [(k, v)]

/-- `new Map(list.map((m) => [m.id, m]))` (`run.js` lines 49-50). -/
def listToMap (l : List Model) : List (String × Model) :=
  l.foldl (fun m x => mapSet m x.id x) []

/-- `Map.prototype.has`. -/
def mapHas (m : List (String × Model)) (k : String) : Bool :=
  m.any (fun p => p.1 == k)

/-- The diff record `{added, removed, changed}` returned by `computeDiff`. -/
structure DiffResult where
  added : List Model
  removed : List Model
  changed : List Model
deriving DecidableEq, Repr

/-- `computeDiff` (`run.js` lines 48-63): key both lists by id via `Map`,
`added` = values of the next map whose id the prev map lacks, `removed` =
values of the prev map whose id the next map lacks, `changed` always empty.
Iteration over a JS `Map` follows insertion order, which the association
lists preserve. -/
def computeDiff (prevList nextList : List Model) : DiffResult :=
  let prevMap := listToMap prevList
  let nextMap := listToMap nextList
  { added := (nextMap.filter (fun p => !(mapHas prevMap p.1))).map Prod.snd
    removed := (prevMap.filter (fun p => !(mapHas nextMap p.1))).map Prod.snd
    changed := [] }

/-! ## Check-in gating (`checkin.js` lines 116-146) -/

/-- The per-site configuration fields of the `Site` row read by the checking
pipeline.  `apiKeyEnc` is the encrypted API key envelope (`none` = JS `null`);
`checkInMode` `none`/`some ""` are both falsy, defaulting to `"both"`. -/
structure Site where
  id : Nat
  name : String
  apiType : String
  apiKeyEnc : Option String
  enableCheckIn : Bool
  checkInMode : Option String
  unlimitedQuota : Bool
deriving DecidableEq, Repr

/-- `site.checkInMode || 'both'`. -/
def resolvedMode (site : Site) : String :=
  if truthyS site.checkInMode then site.checkInMode.getD "" else "both"

/-- `shouldCheckIn` (`checkin.js` lines 116-129): a manual trigger checks in
whenever the site is the veloera variant with check-in enabled, ignoring the
mode; a scheduled trigger additionally requires mode `checkin` or `both`. -/
def shouldCheckIn (site : Site) (isManual : Bool) : Bool :=
  if isManual then site.apiType == "veloera" && site.enableCheckIn
  else if !(site.apiType == "veloera") || !site.enableCheckIn then false
  else
    let mode := resolvedMode site
    mode == "checkin" || mode == "both"

/-- `shouldCheckModels` (`checkin.js` lines 137-146): manual triggers always
fetch models; scheduled triggers require mode `model` or `both`. -/
def shouldCheckModels (site : Site) (isManual : Bool) : Bool :=
  if isManual then true
  else
    let mode := resolvedMode site
    mode == "model" || mode == "both"

/-! ## Billing conversion of `fetchUserInfoNewapi` (`run.js` lines 144-204) -/

/-- The per-variant conversion ratio (`run.js` lines 180-187): every branch
yields 500000 minor units per currency unit. -/
def newapiConversionRatio (apiType : String) : ℚ :=
  if apiType = "newapi" then 500000
  else if apiType = "veloera" then 500000
  else 500000

/-- The quota conversion of `fetchUserInfoNewapi` (`run.js` lines 192-204):
from the raw `userData.quota` (remaining balance) and `userData.used_quota`
(both `|| 0`, so absent and zero coincide), report
`(quota, usedQuota) = (balance + used, used)` in currency units.  The HTTP
fetch and response validation around it are modelled away; inputs are the
parsed integer fields. -/
def fetchUserInfoNewapiQuota (apiType : String)
    (quota used_quota : Option ℚ) : ℚ × ℚ :=
  let r := newapiConversionRatio apiType
  let quotaInDollars := (quota.getD 0) / r
  let usedQuotaInDollars := (used_quota.getD 0) / r
  (quotaInDollars + usedQuotaInDollars, usedQuotaInDollars)

/-! ## Secrets codec (`crypto.js`)

The envelope layer (`"v1:" + base64(iv ‖ tag ‖ ct)`, the version check, the
falsy-payload early return, the `iv`/`tag`/`ct` slicing) is embedded directly
from the source.  The AES-256-GCM core it calls lives in Node's `crypto`
library, outside this repository; it is modelled by the two structural
properties the source relies on: for a fixed key and nonce, encryption is a
length-preserving bijection on byte strings (a CTR keystream XOR), and there
is exactly one valid 16-byte authentication tag per (key, iv, ciphertext) —
`decipher.final()` throws iff the presented tag differs from that recomputed
tag.  The concrete keystream/tag functions below are stand-ins for
AES-CTR/GHASH with those properties. -/

/-- Base64 alphabet. -/
def b64alphabet : List Char :=
  "ABCDEFGHIJKLMNOPQRSTUVWXYZabcdefghijklmnopqrstuvwxyz0123456789+/".toList

/-- The base64 digit for a 6-bit value (out-of-range values, which never
arise while encoding bytes, fall back to the pad character). -/
def b64digit (n : Nat) : Char := b64alphabet.getD n '='

/-- Base64 encoding of a byte list (`Buffer.prototype.toString('base64')`). -/
def b64enc : List Nat → List Char
  | [] => []
  | [a] => [b64digit (a / 4), b64digit (a % 4 * 16), '=', '=']
  | [a, b] => [b64digit (a / 4), b64digit (a % 4 * 16 + b / 16),
               b64digit (b % 16 * 4), '=']
  | a :: b :: c :: rest =>
      b64digit (a / 4) :: b64digit (a % 4 * 16 + b / 16) ::
      b64digit (b % 16 * 4 + c / 64) :: b64digit (c % 64) :: b64enc rest

/-- The 6-bit value of a base64 digit (`List.indexOf` returns the alphabet
length for characters outside the alphabet; such characters do not occur when
decoding an encoder output). -/
def b64val (c : Char) : Nat := b64alphabet.indexOf c

/-- Base64 decoding (`Buffer.from(s, 'base64')`): groups of four digits with
`'='` padding terminating the final group. -/
def b64dec : List Char → List Nat
  | a :: b :: c :: d :: rest =>
      if c = '=' then [b64val a * 4 + b64val b / 16]
      else if d = '=' then
        [b64val a * 4 + b64val b / 16, b64val b % 16 * 16 + b64val c / 4]
      else
        (b64val a * 4 + b64val b / 16) :: (b64val b % 16 * 16 + b64val c / 4) ::
        (b64val c % 4 * 64 + b64val d) :: b64dec rest
  | _ => []

/-- `String.prototype.split(sep)`, on character lists: accumulator-based
splitting at every separator occurrence. -/
def splitChAux (sep : Char) : List Char → List Char → List (List Char)
  | [], acc => [acc.reverse]
  | c :: cs, acc =>
      if c = sep then acc.reverse :: splitChAux sep cs []
      else splitChAux sep cs (c :: acc)

/-- `payload.split(sep)` on the character list of the payload. -/
def splitCh (sep : Char) (l : List Char) : List (List Char) :=
  splitChAux sep l []

/-- The 32-byte key derived once at process start (`getKey`); its derivation
from `CONFIG.ENCRYPTION_KEY` (hex / base64 / scrypt) is not needed by any
claim, so the key material is carried opaquely. -/
structure GcmKey where
  val : Nat
deriving DecidableEq, Repr

/-- Modelled AES-256-CTR keystream byte `i` for (key, iv): a concrete
deterministic stand-in, always `< 256`. -/
def keystreamByte (key : GcmKey) (iv : List Nat) (i : Nat) : Nat :=
  (key.val + iv.sum * 131 + i * 29 + 17) % 256

/-- XOR a byte list against the keystream starting at position `i`. -/
def xorStream (key : GcmKey) (iv : List Nat) : Nat → List Nat → List Nat
  | _, [] => []
  | i, b :: bs => (b ^^^ keystreamByte key iv i) :: xorStream key iv (i + 1) bs

/-- Modelled GCM data transform (`cipher.update`/`cipher.final` resp.
`decipher.update`/`decipher.final`): the CTR keystream XOR, a self-inverse
bijection for fixed key and iv. -/
def gcmXform (key : GcmKey) (iv : List Nat) (data : List Nat) : List Nat :=
  xorStream key iv 0 data

/-- Modelled 128-bit GCM authentication tag (`cipher.getAuthTag`): a
deterministic 16-byte function of (key, iv, ciphertext), standing in for
GHASH.  Verification (`decipher.setAuthTag` + `decipher.final`) recomputes it
and compares. -/
def gcmTag (key : GcmKey) (iv : List Nat) (ct : List Nat) : List Nat :=
  (List.range 16).map fun i =>
    (key.val * 37 + iv.sum * 17 + ct.foldl (fun a b => a * 131 + b + 7) 0 + i) % 256

/-- Plaintext bytes of a string (UTF-8 modelled as the code points; every
concrete input below is ASCII, where the two coincide). -/
def strBytes (s : String) : List Nat := s.data.map Char.toNat

/-- The inverse of `strBytes` on valid outputs. -/
def bytesStr (l : List Nat) : String := ⟨l.map Char.ofNat⟩

/-- `encrypt` (`crypto.js` lines 17-24): `"v1:" + base64(iv ‖ tag ‖ ct)`.
The source draws `iv = crypto.randomBytes(12)`; the nonce is a parameter
here. -/
def encrypt (key : GcmKey) (iv : List Nat) (plaintext : String) : String :=
  let ct := gcmXform key iv (strBytes plaintext)
  let tag := gcmTag key iv ct
  ⟨['v', '1', ':'] ++ b64enc (iv ++ tag ++ ct)⟩

/-- `decrypt` (`crypto.js` lines 26-38).  A falsy payload (`null`,
`undefined`, `""` — the first two modelled as `none`) returns `""` without
error.  Otherwise: split on `':'`, reject a version segment other than
`"v1"` (when no second segment exists, `Buffer.from(undefined, 'base64')`
raises a `TypeError`); base64-decode, slice iv/tag/ciphertext, verify the
tag and fail closed on mismatch, else return the transformed plaintext. -/
def decrypt (key : GcmKey) (payload : Option String) : Except String String :=
  match payload with
  | none => .ok ""
  | some s =>
    if s.data.isEmpty then .ok ""
    else
      match splitCh ':' s.data with
      | [] => .error "unreachable: split is never empty"
      | ver :: rest =>
        if ver ≠ ['v', '1'] then .error "Unsupported enc version"
        else
          match rest.head? with
          | none => .error "TypeError: first argument must not be undefined"
          | some data =>
            let buf := b64dec data
            let iv := buf.take 12
            let tag := (buf.drop 12).take 16
            let ct := buf.drop 28
            if tag = gcmTag key iv ct then
              .ok (bytesStr (gcmXform key iv ct))
            else .error "Unsupported state or unable to authenticate data"

/-- Flip bit `i` of a byte list (byte `i / 8`, bit `i % 8`). -/
def flipBit (i : Nat) (l : List Nat) : List Nat :=
  l.set (i / 8) ((l.getD (i / 8) 0) ^^^ 2 ^ (i % 8))

/-! ## Notification aggregator (`notifier.js`) -/

/-- The singleton `EmailConfig` row. -/
structure EmailConfig where
  enabled : Bool
  resendApiKeyEnc : Option String
  notifyEmails : Option String
deriving DecidableEq, Repr

/-- One double-quoted string literal without escapes. -/
def parseQuoted (l : List Char) : Except String String :=
  match l with
  | '"' :: rest =>
    match rest.reverse with
    | '"' :: midRev =>
      let mid := midRev.reverse
      if mid.any (fun c => c = '"' || c = '\\') then .error "SyntaxError"
      else .ok ⟨mid⟩
    | _ => .error "SyntaxError"
  | _ => .error "SyntaxError"

/-- Minimal model of `JSON.parse` restricted to the flat string arrays the
recipient list uses (`["a@x","b@y"]` without escape sequences); any other
input is a parse error.  The notifier only distinguishes success (a string
list) from a thrown `SyntaxError`. -/
def jsonParseStringArray (s : String) : Except String (List String) :=
  match s.data with
  | '[' :: cs =>
    match cs.reverse with
    | ']' :: innerRev =>
      let inner := innerRev.reverse
      if inner.isEmpty then .ok []
      else (splitCh ',' inner).mapM parseQuoted
    | _ => .error "SyntaxError"
  | _ => .error "SyntaxError"

/-- `String.prototype.trim`: strip whitespace from both ends. -/
def strTrim (s : String) : String :=
  ⟨((s.data.dropWhile Char.isWhitespace).reverse.dropWhile
      Char.isWhitespace).reverse⟩

/-- `String.prototype.split(/[,;]/)`: split at every comma or semicolon. -/
def splitDelims (s : String) : List String :=
  (splitChAux' (fun c => c = ',' || c = ';') s.data []).map List.asString
where
  /-- accumulator-based splitting at every character satisfying `p`. -/
  splitChAux' (p : Char → Bool) : List Char → List Char → List (List Char)
    | [], acc => [acc.reverse]
    | c :: cs, acc =>
        if p c then acc.reverse :: splitChAux' p cs []
        else splitChAux' p cs (c :: acc)

/-- Recipient-list resolution (`notifier.js` lines 45-59): trim, parse as a
JSON array when the text starts with `'['`, otherwise split on comma or
semicolon, trimming entries and dropping empties. -/
def parseEmails (raw : Option String) : Except String (List String) :=
  let emailStr := strTrim (raw.getD "")
  if emailStr.data.head? = some '[' then jsonParseStringArray emailStr
  else
    .ok (((splitDelims emailStr).map strTrim).filter (fun e => e.data.length > 0))

/-- Observable outcome of one notifier entry point.  Every constructor is a
normal return: both entry points wrap their body in `try`/`catch` and never
rethrow (`notifier.js` lines 161-174, 431-441), and the decryption failure is
additionally caught by its own inner `try`/`catch` (lines 71-74, 224-227). -/
inductive NotifyOutcome where
  | skippedNoConfig
  | skippedParseFailure
  | skippedNoEmails
  | skippedDecryptFailure
  | skippedNoChanges
  | sent (recipients : List String)
  | sendFailed (msg : String)
deriving DecidableEq, Repr

/-- `sendModelChangeNotification` (`notifier.js` lines 15-175), up to the
observable send/skip decision: missing or disabled config, recipient parse
failure, empty recipient list, API-key decryption failure and an empty diff
each cause an early normal return; otherwise the mail is sent, and a Resend
failure (`sendOutcome = .error`) is swallowed by the outer catch.  The mail
body construction is elided. -/
def sendModelChangeNotification (key : GcmKey) (config : Option EmailConfig)
    (diff : DiffResult) (sendOutcome : Except String Unit) : NotifyOutcome :=
  match config with
  | none => .skippedNoConfig
  | some c =>
    if !c.enabled then .skippedNoConfig
    else
      match parseEmails c.notifyEmails with
      | .error _ => .skippedParseFailure
      | .ok emails =>
        if emails.isEmpty then .skippedNoEmails
        else
          match decrypt key c.resendApiKeyEnc with
          | .error _ => .skippedDecryptFailure
          | .ok _apiKey =>
            let hasChanges := !diff.added.isEmpty || !diff.removed.isEmpty
            if !hasChanges then .skippedNoChanges
            else
              match sendOutcome with
              | .ok _ => .sent emails
              | .error m => .sendFailed m

/-- One per-site entry of the aggregated digest. -/
structure SiteChange where
  siteName : String
  diff : DiffResult
deriving DecidableEq, Repr

/-- One failed-site entry of the aggregated digest. -/
structure FailedSite where
  siteName : String
  error : String
deriving DecidableEq, Repr

/-- `sendAggregatedNotification` (`notifier.js` lines 178-442), up to the
observable send/skip decision.  Identical config / recipient / decryption
gating; unlike the single-site path there is no emptiness check on the change
and failure lists inside the function (its caller guards that). -/
def sendAggregatedNotification (key : GcmKey) (config : Option EmailConfig)
    (_siteChanges : List SiteChange) (_failedSites : List FailedSite)
    (sendOutcome : Except String Unit) : NotifyOutcome :=
  match config with
  | none => .skippedNoConfig
  | some c =>
    if !c.enabled then .skippedNoConfig
    else
      match parseEmails c.notifyEmails with
      | .error _ => .skippedParseFailure
      | .ok emails =>
        if emails.isEmpty then .skippedNoEmails
        else
          match decrypt key c.resendApiKeyEnc with
          | .error _ => .skippedDecryptFailure
          | .ok _apiKey =>
            match sendOutcome with
            | .ok _ => .sent emails
            | .error m => .sendFailed m

/-! ## Snapshot persistence and `checkSite` (`run.js` lines 636-1036)

The Prisma row store is modelled as an explicit `Store` value: snapshots in
creation order (creation order coincides with `fetchedAt` order), diff rows,
and a log of `sendModelChangeNotification` invocations.  `modelsJson` holds
the parsed form of the stored JSON text (`JSON.parse ∘ JSON.stringify` is the
identity on these lists, and both the `'[]'` literals parse to `[]`).
`lastCheckedAt` bookkeeping on the `Site` row is elided. -/

/-- One `ModelSnapshot` row. -/
structure Snapshot where
  id : Nat
  siteId : Nat
  modelsJson : List Model
  hash : String
  errorMessage : Option String
  billingLimit : Option ℚ
  billingUsage : Option ℚ
  billingError : Option String
  checkInSuccess : Option Bool
  checkInMessage : Option String
  checkInQuota : Option Nat
  checkInError : Option String
deriving DecidableEq, Repr

/-- One `ModelDiff` row. -/
structure DiffRow where
  siteId : Nat
  addedJson : List Model
  removedJson : List Model
  changedJson : List Model
  snapshotFromId : Nat
  snapshotToId : Nat
deriving DecidableEq, Repr

/-- The row store plus the notification side channel. -/
structure Store where
  snaps : List Snapshot
  diffs : List DiffRow
  singleNotes : List (String × DiffResult)
  nextId : Nat
deriving DecidableEq, Repr

/-- `prisma.modelSnapshot.findFirst({where: {siteId, errorMessage: null},
orderBy: {fetchedAt: 'desc'}})` (`run.js` lines 887-893): the most recent
snapshot of this site whose `errorMessage` is null. -/
def findLastSuccess (siteId : Nat) (snaps : List Snapshot) : Option Snapshot :=
  (snaps.filter (fun s => s.siteId == siteId && s.errorMessage.isNone)).getLast?

/-- Outcome of `performCheckIn` as consumed by `checkSite` (`run.js` lines
668-683): the catch branch there maps an exception to
`success = false, error = message`, which is just another value of this
type. -/
structure CheckInOutcome where
  success : Bool
  message : Option String
  quota : Option Nat
  error : Option String
deriving DecidableEq, Repr

/-- The billing triple as resolved by the `billingResults` processing
(`run.js` lines 791-826); which variant-specific fetches produced it does not
matter to the snapshot/diff engine. -/
structure Billing where
  limit : Option ℚ
  usage : Option ℚ
  error : Option String
deriving DecidableEq, Repr

/-- The check-in block of the return value of `checkSite`. -/
structure CkFields where
  checkInSuccess : Option Bool
  checkInMessage : Option String
  checkInQuota : Option Nat
  checkInError : Option String
deriving DecidableEq, Repr

/-- The return value of `checkSite`.  The two return sites of the source
produce objects with different key sets; absent keys are modelled by the
neutral values (`checkInOnly` absent = `false`, `checkInChanged` absent =
`false`, `diff` null = `none`). -/
structure CheckResult where
  ok : Bool
  hasChanges : Bool
  diff : Option DiffResult
  siteName : String
  checkInOnly : Bool
  checkInChanged : Bool
  checkInResult : Option CkFields
deriving DecidableEq, Repr

/-- The `checkInChanged` detection of `run.js` lines 903-942, comparing the
current check-in outcome against the last successful snapshot. -/
def checkInChangedFlag (needCheckIn : Bool) (lastSnap : Option Snapshot)
    (ckS : Option Bool) (ckE : Option String) : Bool :=
  if needCheckIn then
    match lastSnap with
    | none => ckS.isSome
    | some ls =>
      if ls.checkInSuccess = none ∧ ckS ≠ none then true
      else if ls.checkInSuccess ≠ none ∧ ckS ≠ none ∧ ls.checkInSuccess ≠ ckS then
        true
      else if ckS = some false ∧ ls.checkInError ≠ ckE then true
      else false
  else false

/-- `checkSite` (`run.js` lines 636-1036).  Network interactions are
arguments: `ck` is the `performCheckIn` outcome (consulted only when check-in
runs), `fetchRes` the outcome of the variant's model fetch (`.error` models
the thrown structured error, whose message the site check rethrows after
writing the diagnostic snapshot), `b` the resolved billing triple.  The
result `Except` channel models exceptions escaping `checkSite`. -/
def checkSite (key : GcmKey) (site : Site) (isManual skipNotification : Bool)
    (ck : CheckInOutcome) (fetchRes : Except String (List Model)) (b : Billing)
    (st : Store) : Store × Except String CheckResult :=
  match decrypt key site.apiKeyEnc with
  | .error e => (st, .error e)
  | .ok _apiKey =>
    let needCheckIn := shouldCheckIn site isManual
    let needCheckModels := shouldCheckModels site isManual
    let ckS : Option Bool := if needCheckIn then some ck.success else none
    let ckM : Option String := if needCheckIn then ck.message else none
    let ckQ : Option Nat := if needCheckIn then ck.quota else none
    let ckE : Option String := if needCheckIn then ck.error else none
    if needCheckModels then
      let rb : Billing := if site.unlimitedQuota then ⟨none, none, none⟩ else b
      match fetchRes with
      | .error msg =>
        -- lines 849-883: diagnostic error snapshot, then rethrow
        let snap : Snapshot :=
          { id := st.nextId, siteId := site.id, modelsJson := [], hash := ""
            errorMessage := some msg
            billingLimit := none, billingUsage := none, billingError := none
            checkInSuccess := ckS, checkInMessage := ckM, checkInQuota := ckQ
            checkInError := ckE }
        ({ st with snaps := st.snaps ++ [snap], nextId := st.nextId + 1 },
         .error msg)
      | .ok models =>
        let hash := hashModels models
        let lastSnap := findLastSuccess site.id st.snaps
        let checkInChanged := checkInChangedFlag needCheckIn lastSnap ckS ckE
        let snap : Snapshot :=
          { id := st.nextId, siteId := site.id, modelsJson := models
            hash := hash, errorMessage := none
            billingLimit := rb.limit, billingUsage := rb.usage
            billingError := rb.error
            checkInSuccess := ckS, checkInMessage := ckM, checkInQuota := ckQ
            checkInError := ckE }
        let st1 : Store :=
          { st with snaps := st.snaps ++ [snap], nextId := st.nextId + 1 }
        let ckRes : Option CkFields :=
          if needCheckIn && ckS.isSome then some ⟨ckS, ckM, ckQ, ckE⟩ else none
        match lastSnap with
        | some ls =>
          if ls.hash ≠ hash then
            let diff := computeDiff ls.modelsJson models
            let hasChanges := !diff.added.isEmpty || !diff.removed.isEmpty
            let st2 : Store :=
              if hasChanges then
                { st1 with diffs := st1.diffs ++
                    [{ siteId := site.id, addedJson := diff.added
                       removedJson := diff.removed, changedJson := diff.changed
                       snapshotFromId := ls.id, snapshotToId := snap.id }] }
              else st1
            let st3 : Store :=
              if hasChanges && !skipNotification then
                { st2 with singleNotes := st2.singleNotes ++ [(site.name, diff)] }
              else st2
            (st3, .ok { ok := true, hasChanges := hasChanges
                        diff := if hasChanges then some diff else none
                        siteName := site.name, checkInOnly := false
                        checkInChanged := checkInChanged
                        checkInResult := ckRes })
          else
            (st1, .ok { ok := true, hasChanges := false, diff := none
                        siteName := site.name, checkInOnly := false
                        checkInChanged := checkInChanged
                        checkInResult := ckRes })
        | none =>
          -- lines 986-990: first check, baseline only
          (st1, .ok { ok := true, hasChanges := false, diff := none
                      siteName := site.name, checkInOnly := false
                      checkInChanged := checkInChanged
                      checkInResult := ckRes })
    else
      -- lines 686-720: checkin-only early return
      let snap : Snapshot :=
        { id := st.nextId, siteId := site.id, modelsJson := [], hash := ""
          errorMessage := none
          billingLimit := none, billingUsage := none, billingError := none
          checkInSuccess := ckS, checkInMessage := ckM, checkInQuota := ckQ
          checkInError := ckE }
      ({ st with snaps := st.snaps ++ [snap], nextId := st.nextId + 1 },
       .ok { ok := true, hasChanges := false, diff := none
             siteName := site.name, checkInOnly := true, checkInChanged := false
             checkInResult := some ⟨ckS, ckM, ckQ, ckE⟩ })

/-! ## Global batch (`scheduleGlobalTask` body, scheduler lines 548-631) -/

/-- The per-site inputs of one batch iteration. -/
structure BatchInput where
  site : Site
  ck : CheckInOutcome
  fetchRes : Except String (List Model)
  billing : Billing

/-- The body of the global cron job (scheduler lines 574-623) over an
already-selected site list: check each site strictly sequentially with
`skipNotification = true`, collecting `{siteName, diff}` for results with
changes and `{siteName, error}` for thrown exceptions (a site's exception is
caught and does not stop the loop); afterwards dispatch exactly one
aggregated notification when at least one change or failure was collected,
otherwise none.  The pacing sleep and the `lastRun` update do not affect
the modelled state.  Returns (store, sitesWithChanges, failedSites,
aggregated-notification dispatches). -/
def runGlobalBatch (key : GcmKey) (inputs : List BatchInput) (st : Store) :
    Store × List SiteChange × List FailedSite ×
      List (List SiteChange × List FailedSite) :=
  let step := fun (acc : Store × List SiteChange × List FailedSite)
      (inp : BatchInput) =>
    match checkSite key inp.site false true inp.ck inp.fetchRes inp.billing
        acc.1 with
    | (st', .ok r) =>
        (st',
         if r.hasChanges && r.diff.isSome then
           acc.2.1 ++ [⟨r.siteName, r.diff.getD ⟨[], [], []⟩⟩]
         else acc.2.1,
         acc.2.2)
    | (st', .error e) => (st', acc.2.1, acc.2.2 ++ [⟨inp.site.name, e⟩])
  let res := inputs.foldl step (st, [], [])
  let notes := if res.2.1 ≠ [] ∨ res.2.2 ≠ [] then [(res.2.1, res.2.2)] else []
  (res.1, res.2.1, res.2.2, notes)

/-! ## Lemmas about the `Map` model and `computeDiff` -/

/-- Pairing a model with its id, as `new Map(list.map((m) => [m.id, m]))`
does entry-wise. -/
def keyed (m : Model) : String × Model := (m.id, m)

theorem mapSet_of_not_mem (m : List (String × Model)) (k : String) (v : Model)
    (h : m.any (fun p => p.1 == k) = false) : mapSet m k v = m ++ [(k, v)] := by
  simp only [mapSet, h]
  rfl

theorem foldl_mapSet_nodup : ∀ (l : List Model) (acc : List (String × Model)),
    (∀ y ∈ l, acc.any (fun p => p.1 == y.id) = false) →
    (l.map Model.id).Nodup →
    l.foldl (fun m x => mapSet m x.id x) acc = acc ++ l.map keyed
  | [], acc, _, _ => by simp
  | x :: xs, acc, hdis, hnd => by
    rw [List.foldl_cons, mapSet_of_not_mem _ _ _ (hdis x (by simp))]
    have hnd' := hnd
    simp only [List.map_cons, List.nodup_cons] at hnd'
    rw [foldl_mapSet_nodup xs (acc ++ [(x.id, x)]) ?_ hnd'.2]
    · simp [keyed]
    · intro y hy
      have h1 := hdis y (by simp [hy])
      have hne : x.id ≠ y.id := fun he => hnd'.1 (he ▸ List.mem_map_of_mem Model.id hy)
      simp [List.any_append, h1, hne]

theorem listToMap_eq_of_nodup (l : List Model) (h : (l.map Model.id).Nodup) :
    listToMap l = l.map keyed := by
  simpa [listToMap] using foldl_mapSet_nodup l [] (by simp) h

theorem mapHas_map_keyed (l : List Model) (k : String) :
    mapHas (l.map keyed) k = (l.map Model.id).contains k := by
  rw [Bool.eq_iff_iff]
  simp [mapHas, keyed, List.any_eq_true, List.mem_map]

theorem mapHas_of_mem {m : List (String × Model)} {p : String × Model}
    (hp : p ∈ m) : mapHas m p.1 = true := by
  simp only [mapHas, List.any_eq_true]
  exact ⟨p, hp, by simp⟩

theorem computeDiff_self_empty (A : List Model) :
    (computeDiff A A).added = [] ∧ (computeDiff A A).removed = [] := by
  constructor <;>
  · simp only [computeDiff, List.map_eq_nil_iff, List.filter_eq_nil_iff]
    intro p hp
    simp [mapHas_of_mem hp]

/-! ## Lemmas about the canonical sort -/

/-- Two lists that are permutations of each other, both sorted by id, with
pairwise-distinct ids, are equal: the canonical sort has a unique result on
duplicate-free keys. -/
theorem eq_of_perm_sorted_nodupKeys : ∀ {l₁ l₂ : List Model},
    l₁.Perm l₂ → l₁.Pairwise modelLe → l₂.Pairwise modelLe →
    (l₁.map Model.id).Nodup → l₁ = l₂
  | [], _, hp, _, _, _ => hp.nil_eq
  | _ :: _, [], hp, _, _, _ => by simpa using hp.length_eq
  | a :: t₁, b :: t₂, hp, hs₁, hs₂, hnd => by
    obtain ⟨ha1, hs₁'⟩ := List.pairwise_cons.mp hs₁
    obtain ⟨hb1, hs₂'⟩ := List.pairwise_cons.mp hs₂
    simp only [List.map_cons, List.nodup_cons] at hnd
    have hab : a = b := by
      rcases List.mem_cons.mp (hp.mem_iff.mp (List.mem_cons_self a t₁)) with h | h
      · exact h
      · rcases List.mem_cons.mp (hp.symm.mem_iff.mp (List.mem_cons_self b t₂))
          with h' | h'
        · exact h'.symm
        · have hid : a.id = b.id := idLe_antisymm (ha1 b h') (hb1 a h)
          exact absurd (hid ▸ List.mem_map_of_mem Model.id h') hnd.1
    subst hab
    rw [eq_of_perm_sorted_nodupKeys hp.cons_inv hs₁' hs₂' hnd.2]

/-! ## Lemmas about the secrets codec -/

theorem b64val_digit : ∀ n, n < 64 → b64val (b64digit n) = n := by decide

theorem b64digit_ne_pad : ∀ n, n < 64 → b64digit n ≠ '=' := by decide

theorem b64digit_ne_colon (n : Nat) : b64digit n ≠ ':' := by
  by_cases h : n < 64
  · revert n
    decide
  · show b64alphabet.getD n '=' ≠ ':'
    rw [List.getD_eq_default]
    · decide
    · simpa [b64alphabet] using Nat.le_of_not_lt h

theorem b64_roundtrip : ∀ l : List Nat, (∀ b ∈ l, b < 256) →
    b64dec (b64enc l) = l
  | [], _ => rfl
  | [a], h => by
    have ha : a < 256 := h a (by simp)
    have h1 : a / 4 < 64 := by omega
    have h2 : a % 4 * 16 < 64 := by omega
    simp only [b64enc, b64dec, if_true]
    rw [b64val_digit _ h1, b64val_digit _ h2]
    simp only [List.cons.injEq, and_true]
    omega
  | [a, b], h => by
    have ha : a < 256 := h a (by simp)
    have hb : b < 256 := h b (by simp)
    have h1 : a / 4 < 64 := by omega
    have h2 : a % 4 * 16 + b / 16 < 64 := by omega
    have h3 : b % 16 * 4 < 64 := by omega
    simp only [b64enc, b64dec]
    rw [if_neg (b64digit_ne_pad _ h3)]
    simp only [if_true]
    rw [b64val_digit _ h1, b64val_digit _ h2, b64val_digit _ h3]
    simp only [List.cons.injEq]
    exact ⟨by omega, by omega, trivial⟩
  | a :: b :: c :: rest, h => by
    have ha : a < 256 := h a (by simp)
    have hb : b < 256 := h b (by simp)
    have hc : c < 256 := h c (by simp)
    have h1 : a / 4 < 64 := by omega
    have h2 : a % 4 * 16 + b / 16 < 64 := by omega
    have h3 : b % 16 * 4 + c / 64 < 64 := by omega
    have h4 : c % 64 < 64 := by omega
    have ih := b64_roundtrip rest (fun x hx => h x (by simp [hx]))
    simp only [b64enc, b64dec]
    rw [if_neg (b64digit_ne_pad _ h3), if_neg (b64digit_ne_pad _ h4),
      b64val_digit _ h1, b64val_digit _ h2, b64val_digit _ h3,
      b64val_digit _ h4, ih]
    simp only [List.cons.injEq]
    exact ⟨by omega, by omega, by omega, trivial⟩

theorem b64enc_no_colon : ∀ l : List Nat, ':' ∉ b64enc l
  | [] => by simp [b64enc]
  | [a] => by
    intro hm
    simp only [b64enc, List.mem_cons, List.not_mem_nil, or_false] at hm
    rcases hm with h | h | h | h
    · exact b64digit_ne_colon _ h.symm
    · exact b64digit_ne_colon _ h.symm
    · exact absurd h (by decide)
    · exact absurd h (by decide)
  | [a, b] => by
    intro hm
    simp only [b64enc, List.mem_cons, List.not_mem_nil, or_false] at hm
    rcases hm with h | h | h | h
    · exact b64digit_ne_colon _ h.symm
    · exact b64digit_ne_colon _ h.symm
    · exact b64digit_ne_colon _ h.symm
    · exact absurd h (by decide)
  | a :: b :: c :: rest => by
    intro hm
    simp only [b64enc, List.mem_cons] at hm
    rcases hm with h | h | h | h | h
    · exact b64digit_ne_colon _ h.symm
    · exact b64digit_ne_colon _ h.symm
    · exact b64digit_ne_colon _ h.symm
    · exact b64digit_ne_colon _ h.symm
    · exact b64enc_no_colon rest h

theorem splitChAux_of_not_mem (sep : Char) : ∀ (l acc : List Char), sep ∉ l →
    splitChAux sep l acc = [acc.reverse ++ l]
  | [], acc, _ => by simp [splitChAux]
  | c :: cs, acc, h => by
    have hc : ¬c = sep := fun he => h (he ▸ List.mem_cons_self c cs)
    rw [splitChAux, if_neg hc,
      splitChAux_of_not_mem sep cs (c :: acc) (fun hm => h (List.mem_cons_of_mem c hm))]
    simp

theorem splitChAux_ne_nil (sep : Char) : ∀ (l acc : List Char),
    splitChAux sep l acc ≠ []
  | [], acc => by simp [splitChAux]
  | c :: cs, acc => by
    rw [splitChAux]
    split
    · simp
    · exact splitChAux_ne_nil sep cs (c :: acc)

theorem xorStream_lt : ∀ (key : GcmKey) (iv : List Nat) (i : Nat)
    (l : List Nat), (∀ b ∈ l, b < 256) → ∀ x ∈ xorStream key iv i l, x < 256
  | _, _, _, [], _ => by simp [xorStream]
  | key, iv, i, b :: bs, h => by
    simp only [xorStream, List.mem_cons, forall_eq_or_imp]
    constructor
    · have h1 : b < 2 ^ 8 := h b (by simp)
      have h2 : keystreamByte key iv i < 2 ^ 8 := Nat.mod_lt _ (by norm_num)
      exact Nat.xor_lt_two_pow h1 h2
    · exact fun x hx =>
        xorStream_lt key iv (i + 1) bs (fun y hy => h y (by simp [hy])) x hx

theorem gcmTag_length (key : GcmKey) (iv ct : List Nat) :
    (gcmTag key iv ct).length = 16 := by simp [gcmTag]

theorem gcmTag_lt (key : GcmKey) (iv ct : List Nat) :
    ∀ x ∈ gcmTag key iv ct, x < 256 := by
  intro x hx
  simp only [gcmTag, List.mem_map] at hx
  obtain ⟨i, _, he⟩ := hx
  exact he ▸ Nat.mod_lt _ (by norm_num)

theorem flipBit_length (i : Nat) (l : List Nat) :
    (flipBit i l).length = l.length := by simp [flipBit]

theorem flipBit_lt (i : Nat) (l : List Nat) (h : ∀ x ∈ l, x < 256) :
    ∀ x ∈ flipBit i l, x < 256 := by
  intro x hx
  simp only [flipBit] at hx
  rcases List.mem_or_eq_of_mem_set hx with hm | he
  · exact h x hm
  · subst he
    by_cases hi : i / 8 < l.length
    · have h1 : l.getD (i / 8) 0 < 2 ^ 8 := by
        rw [List.getD_eq_getElem l 0 hi]
        exact h _ (List.getElem_mem hi)
      have h2 : (2 : Nat) ^ (i % 8) < 2 ^ 8 :=
        Nat.pow_lt_pow_right (by norm_num) (Nat.mod_lt _ (by norm_num))
      exact Nat.xor_lt_two_pow h1 h2
    · rw [List.getD_eq_default _ _ (Nat.le_of_not_lt hi)]
      have h2 : (2 : Nat) ^ (i % 8) < 2 ^ 8 :=
        Nat.pow_lt_pow_right (by norm_num) (Nat.mod_lt _ (by norm_num))
      simpa using h2

theorem flipBit_ne (i : Nat) (l : List Nat) (h : i / 8 < l.length) :
    flipBit i l ≠ l := by
  intro he
  have hg : (flipBit i l).getD (i / 8) 0 = l.getD (i / 8) 0 := by rw [he]
  rw [flipBit, List.getD_eq_getElem _ _ (by simpa using h),
    List.getElem_set_self, List.getD_eq_getElem _ _ h] at hg
  have h0 : (2 : Nat) ^ (i % 8) = 0 := by
    have h1 : l[i / 8] ^^^ (l[i / 8] ^^^ 2 ^ (i % 8)) = l[i / 8] ^^^ l[i / 8] := by
      rw [hg]
    rwa [← Nat.xor_assoc, Nat.xor_self, Nat.zero_xor] at h1
  have h2 : 0 < (2 : Nat) ^ (i % 8) := Nat.pos_pow_of_pos _ (by norm_num)
  omega

/-! ## Shape lemmas about `checkSite` -/

/-- A checkin-only run (`shouldCheckModels` false) is fully determined by
the site, trigger and check-in outcome: one snapshot with empty model list,
empty hash and null `errorMessage`, no diff row, no notification, and the
checkin-only result value. -/
theorem checkSite_checkin_only (key : GcmKey) (site : Site)
    (isManual skipNotification : Bool) (ck : CheckInOutcome)
    (fetchRes : Except String (List Model)) (b : Billing) (st : Store)
    (pt : String) (hdec : decrypt key site.apiKeyEnc = .ok pt)
    (hm : shouldCheckModels site isManual = false) :
    checkSite key site isManual skipNotification ck fetchRes b st
      = ({ st with
            snaps := st.snaps ++
              [{ id := st.nextId, siteId := site.id, modelsJson := [],
                 hash := "", errorMessage := none,
                 billingLimit := none, billingUsage := none,
                 billingError := none,
                 checkInSuccess :=
                   if shouldCheckIn site isManual then some ck.success else none,
                 checkInMessage :=
                   if shouldCheckIn site isManual then ck.message else none,
                 checkInQuota :=
                   if shouldCheckIn site isManual then ck.quota else none,
                 checkInError :=
                   if shouldCheckIn site isManual then ck.error else none }],
            nextId := st.nextId + 1 },
         .ok { ok := true, hasChanges := false, diff := none,
               siteName := site.name, checkInOnly := true,
               checkInChanged := false,
               checkInResult := some
                 ⟨if shouldCheckIn site isManual then some ck.success else none,
                  if shouldCheckIn site isManual then ck.message else none,
                  if shouldCheckIn site isManual then ck.quota else none,
                  if shouldCheckIn site isManual then ck.error else none⟩ }) := by
  rw [checkSite, hdec]
  simp [hm]

/-- Any `checkSite` run whose credential decrypts appends exactly one
snapshot row for its site, whatever the fetch outcome and prior store. -/
theorem checkSite_snaps_map (key : GcmKey) (site : Site)
    (isManual skipNotification : Bool) (ck : CheckInOutcome)
    (fetchRes : Except String (List Model)) (b : Billing) (st : Store)
    (pt : String) (hdec : decrypt key site.apiKeyEnc = .ok pt) :
    ((checkSite key site isManual skipNotification ck fetchRes b st).1).snaps.map
        (fun s => s.siteId)
      = st.snaps.map (fun s => s.siteId) ++ [site.id] := by
  rw [checkSite, hdec]
  by_cases hm : shouldCheckModels site isManual
  · simp only [hm, if_true]
    cases fetchRes with
    | error e => simp
    | ok models =>
      cases hls : findLastSuccess site.id st.snaps with
      | none => simp
      | some ls =>
        by_cases hh : ls.hash ≠ hashModels models
        · simp only [hh, if_true]
          repeat' split
          all_goals simp
        · simp [hh]
  · simp [hm]

/-- A `checkSite` run with a successful decryption and a successful model
fetch returns `.ok`. -/
theorem checkSite_ok_shape (key : GcmKey) (site : Site)
    (isManual skipNotification : Bool) (ck : CheckInOutcome)
    (models : List Model) (b : Billing) (st : Store) (pt : String)
    (hdec : decrypt key site.apiKeyEnc = .ok pt) :
    ∃ stx r, checkSite key site isManual skipNotification ck (.ok models) b st
        = (stx, .ok r)
      ∧ stx.snaps.map (fun s => s.siteId)
          = st.snaps.map (fun s => s.siteId) ++ [site.id] := by
  have hs := checkSite_snaps_map key site isManual skipNotification ck
    (.ok models) b st pt hdec
  rcases he : checkSite key site isManual skipNotification ck (.ok models) b st
    with ⟨stx, r⟩
  rw [he] at hs
  cases r with
  | ok r => exact ⟨stx, r, rfl, hs⟩
  | error e =>
    exfalso
    revert he
    rw [checkSite, hdec]
    by_cases hm : shouldCheckModels site isManual
    · simp only [hm, if_true]
      cases hls : findLastSuccess site.id st.snaps with
      | none => simp
      | some ls =>
        by_cases hh : ls.hash ≠ hashModels models
        · simp only [hh, if_true]
          repeat' split
          all_goals simp
        · simp [hh]
    · simp [hm]

/-- A `checkSite` run with a successful decryption whose model fetch throws
(and whose mode does fetch models) writes the diagnostic error snapshot and
rethrows the fetch error. -/
theorem checkSite_error_shape (key : GcmKey) (site : Site)
    (isManual skipNotification : Bool) (ck : CheckInOutcome) (e : String)
    (b : Billing) (st : Store) (pt : String)
    (hdec : decrypt key site.apiKeyEnc = .ok pt)
    (hm : shouldCheckModels site isManual = true) :
    ∃ stx, checkSite key site isManual skipNotification ck (.error e) b st
        = (stx, .error e)
      ∧ stx.snaps.map (fun s => s.siteId)
          = st.snaps.map (fun s => s.siteId) ++ [site.id] := by
  have hs := checkSite_snaps_map key site isManual skipNotification ck
    (.error e) b st pt hdec
  rw [checkSite, hdec] at hs ⊢
  simp only [hm, if_true] at hs ⊢
  exact ⟨_, rfl, hs⟩

/-! ## Claim theorems -/

/-- C1 (amended): a checkin-only run skips model fetching and billing
entirely (its outcome does not depend on the fetch or billing arguments at
all) and writes one snapshot with the empty canonical model list, the
empty-string hash and a null `errorMessage`, carrying only the check-in
outcome; no diff row and no notification is produced by that run.  However —
contrary to the claim's final part — such a snapshot CAN later serve as the
comparison baseline: the lineage query filters only on
`errorMessage == null`, which the checkin-only snapshot satisfies, and its
empty hash always differs from a real model hash, so the next successful
model check diffs against the empty list (see the counterexample). -/
theorem claim_C1_checkin_only_run (key : GcmKey) (site : Site)
    (isManual skipNotification : Bool) (ck : CheckInOutcome)
    (fetchRes fetchRes' : Except String (List Model)) (b b' : Billing)
    (st : Store) (pt : String)
    (hdec : decrypt key site.apiKeyEnc = .ok pt)
    (hm : shouldCheckModels site isManual = false) :
    checkSite key site isManual skipNotification ck fetchRes b st
      = ({ st with
            snaps := st.snaps ++
              [{ id := st.nextId, siteId := site.id, modelsJson := [],
                 hash := "", errorMessage := none,
                 billingLimit := none, billingUsage := none,
                 billingError := none,
                 checkInSuccess :=
                   if shouldCheckIn site isManual then some ck.success else none,
                 checkInMessage :=
                   if shouldCheckIn site isManual then ck.message else none,
                 checkInQuota :=
                   if shouldCheckIn site isManual then ck.quota else none,
                 checkInError :=
                   if shouldCheckIn site isManual then ck.error else none }],
            nextId := st.nextId + 1 },
         .ok { ok := true, hasChanges := false, diff := none,
               siteName := site.name, checkInOnly := true,
               checkInChanged := false,
               checkInResult := some
                 ⟨if shouldCheckIn site isManual then some ck.success else none,
                  if shouldCheckIn site isManual then ck.message else none,
                  if shouldCheckIn site isManual then ck.quota else none,
                  if shouldCheckIn site isManual then ck.error else none⟩ })
    ∧ checkSite key site isManual skipNotification ck fetchRes b st
      = checkSite key site isManual skipNotification ck fetchRes' b' st :=
  ⟨checkSite_checkin_only key site isManual skipNotification ck fetchRes b st
      pt hdec hm,
   (checkSite_checkin_only key site isManual skipNotification ck fetchRes b st
      pt hdec hm).trans
     (checkSite_checkin_only key site isManual skipNotification ck fetchRes' b'
      st pt hdec hm).symm⟩

/-- C1 witness: a concrete checkin-only scheduled run. -/
theorem claim_C1_checkin_only_run_witness :
    (decrypt ⟨0⟩ (⟨1, "s", "veloera", none, true, some "checkin", true⟩ :
        Site).apiKeyEnc = .ok ""
      ∧ shouldCheckModels ⟨1, "s", "veloera", none, true, some "checkin", true⟩
          false = false)
    ∧ (checkSite ⟨0⟩ ⟨1, "s", "veloera", none, true, some "checkin", true⟩
          false false ⟨true, some "ok", none, none⟩
          (.ok [⟨"m", "model", "u", none, 0, none, none, none⟩])
          ⟨some 1, some 0, none⟩ ⟨[], [], [], 0⟩
        = (⟨[⟨0, 1, [], "", none, none, none, none, some true, some "ok",
              none, none⟩], [], [], 1⟩,
           .ok ⟨true, false, none, "s", true, false,
                some ⟨some true, some "ok", none, none⟩⟩)
      ∧ checkSite ⟨0⟩ ⟨1, "s", "veloera", none, true, some "checkin", true⟩
          false false ⟨true, some "ok", none, none⟩
          (.ok [⟨"m", "model", "u", none, 0, none, none, none⟩])
          ⟨some 1, some 0, none⟩ ⟨[], [], [], 0⟩
        = checkSite ⟨0⟩ ⟨1, "s", "veloera", none, true, some "checkin", true⟩
            false false ⟨true, some "ok", none, none⟩ (.error "boom")
            ⟨none, none, some "bill-err"⟩ ⟨[], [], [], 0⟩) :=
  ⟨⟨rfl, rfl⟩,
   claim_C1_checkin_only_run ⟨0⟩
     ⟨1, "s", "veloera", none, true, some "checkin", true⟩ false false
     ⟨true, some "ok", none, none⟩
     (.ok [⟨"m", "model", "u", none, 0, none, none, none⟩]) (.error "boom")
     ⟨some 1, some 0, none⟩ ⟨none, none, some "bill-err"⟩ ⟨[], [], [], 0⟩ ""
     rfl rfl⟩

/-- C1 counterexample: the checkin-only snapshot (id 0, hash `""`,
`errorMessage` null) of a scheduled checkin-only run becomes the `prev` side
(`snapshotFromId = 0`) of the `ModelDiff` row written by the next successful
model check — it is not excluded from diff-lineage comparisons. -/
theorem claim_C1_counterexample :
    (checkSite ⟨0⟩ ⟨1, "s", "veloera", none, true, some "checkin", true⟩ false
        false ⟨true, some "ok", none, none⟩ (.ok []) ⟨none, none, none⟩
        ⟨[], [], [], 0⟩).1.snaps.map (fun s => (s.id, s.hash, s.errorMessage))
      = [(0, "", none)]
    ∧ (checkSite ⟨0⟩ ⟨1, "s", "veloera", none, true, some "checkin", true⟩
        true false ⟨true, some "ok", none, none⟩
        (.ok [⟨"gpt-4", "model", "unknown", none, 7, none, none, none⟩])
        ⟨none, none, none⟩
        (checkSite ⟨0⟩ ⟨1, "s", "veloera", none, true, some "checkin", true⟩
          false false ⟨true, some "ok", none, none⟩ (.ok []) ⟨none, none, none⟩
          ⟨[], [], [], 0⟩).1).1.diffs.map
        (fun d => (d.snapshotFromId, d.snapshotToId, d.addedJson))
      = [(0, 1, [⟨"gpt-4", "model", "unknown", none, 7, none, none, none⟩])] := by
  refine ⟨by decide, by decide⟩

/-- C2 (amended): for model lists whose entries carry pairwise-distinct ids,
`computeDiff(A, B).added` is exactly the entries of `B` whose id is absent
from `A` (in `B`'s order) and `.removed` exactly the entries of `A` whose id
is absent from `B`; `computeDiff(A, A)` has empty `added` and `removed` (this
and the always-empty `changed` hold for every input, duplicate ids
included).  The distinct-id proviso is forced: a `Map` keyed by id keeps one
entry per id (see the counterexample). -/
theorem claim_C2_computeDiff_sets :
    (∀ (A B : List Model),
      (A.map Model.id).Nodup → (B.map Model.id).Nodup →
      (computeDiff A B).added
          = B.filter (fun m => !((A.map Model.id).contains m.id))
      ∧ (computeDiff A B).removed
          = A.filter (fun m => !((B.map Model.id).contains m.id)))
    ∧ (∀ A : List Model,
        (computeDiff A A).added = [] ∧ (computeDiff A A).removed = [])
    ∧ (∀ A B : List Model, (computeDiff A B).changed = []) := by
  refine ⟨?_, computeDiff_self_empty, fun _ _ => rfl⟩
  intro A B hA hB
  constructor
  · simp only [computeDiff, listToMap_eq_of_nodup A hA,
      listToMap_eq_of_nodup B hB]
    rw [List.filter_map, List.map_map]
    simp [Function.comp_def, keyed, mapHas_map_keyed]
  · simp only [computeDiff, listToMap_eq_of_nodup A hA,
      listToMap_eq_of_nodup B hB]
    rw [List.filter_map, List.map_map]
    simp [Function.comp_def, keyed, mapHas_map_keyed]

/-- C2 witness: the distinct-id characterization evaluated at a concrete
pair of lists, and the unconditional self-diff / `changed` parts evaluated
at a concrete list with a duplicated id. -/
theorem claim_C2_computeDiff_sets_witness :
    (([⟨"a", "model", "u", none, 0, none, none, none⟩].map Model.id).Nodup
      ∧ (([⟨"b", "model", "u", none, 0, none, none, none⟩] : List Model).map
          Model.id).Nodup)
    ∧ ((computeDiff [⟨"a", "model", "u", none, 0, none, none, none⟩]
          [⟨"b", "model", "u", none, 0, none, none, none⟩]).added
        = [⟨"b", "model", "u", none, 0, none, none, none⟩].filter
            (fun m => !(([⟨"a", "model", "u", none, 0, none, none, none⟩].map
              Model.id).contains m.id))
      ∧ (computeDiff [⟨"a", "model", "u", none, 0, none, none, none⟩]
          [⟨"b", "model", "u", none, 0, none, none, none⟩]).removed
        = [⟨"a", "model", "u", none, 0, none, none, none⟩].filter
            (fun m => !(([⟨"b", "model", "u", none, 0, none, none, none⟩].map
              Model.id).contains m.id)))
    ∧ ((computeDiff [⟨"x", "model", "a", none, 0, none, none, none⟩,
          ⟨"x", "model", "b", none, 0, none, none, none⟩]
          [⟨"x", "model", "a", none, 0, none, none, none⟩,
          ⟨"x", "model", "b", none, 0, none, none, none⟩]).added = []
      ∧ (computeDiff [⟨"x", "model", "a", none, 0, none, none, none⟩,
          ⟨"x", "model", "b", none, 0, none, none, none⟩]
          [⟨"x", "model", "a", none, 0, none, none, none⟩,
          ⟨"x", "model", "b", none, 0, none, none, none⟩]).removed = [])
    ∧ (computeDiff [⟨"x", "model", "a", none, 0, none, none, none⟩,
          ⟨"x", "model", "b", none, 0, none, none, none⟩]
          [⟨"y", "model", "u", none, 0, none, none, none⟩]).changed = [] :=
  ⟨⟨by decide, by decide⟩,
   claim_C2_computeDiff_sets.1 _ _ (by decide) (by decide),
   claim_C2_computeDiff_sets.2.1 _,
   claim_C2_computeDiff_sets.2.2 _ _⟩

/-- C2 counterexample: with `A = []` and `B` holding two entries that share
the id `"x"`, `added` is `[m2]` (the `Map` keeps only the last entry per
id), while the entries of `B` whose id is absent from `A` are `[m1, m2]` —
so the claim fails as stated for lists with duplicate ids. -/
theorem claim_C2_counterexample :
    (computeDiff [] [⟨"x", "model", "a", none, 0, none, none, none⟩,
        ⟨"x", "model", "b", none, 0, none, none, none⟩]).added
      = [⟨"x", "model", "b", none, 0, none, none, none⟩]
    ∧ ([⟨"x", "model", "a", none, 0, none, none, none⟩,
        ⟨"x", "model", "b", none, 0, none, none, none⟩] : List Model).filter
          (fun m => !((([] : List Model).map Model.id).contains m.id))
      = [⟨"x", "model", "a", none, 0, none, none, none⟩,
         ⟨"x", "model", "b", none, 0, none, none, none⟩]
    ∧ ([⟨"x", "model", "b", none, 0, none, none, none⟩] : List Model)
      ≠ [⟨"x", "model", "a", none, 0, none, none, none⟩,
         ⟨"x", "model", "b", none, 0, none, none, none⟩] := by
  refine ⟨by decide, by decide, by decide⟩

/-- C3 (amended): the canonical sort of `normalizeModels` makes the content
hash insensitive to upstream ordering for the openai-compatible pipeline
(`fetchModels`), for every raw list whose normalized entries carry
pairwise-distinct ids.  It does NOT hold "on every fetchModels variant's
output": `fetchModelsNewapi` (and the donehub variant) never sorts, so its
hash is order-sensitive — see the counterexample. -/
theorem claim_C3_hash_order_insensitive (now : Nat) (L Lshuffled : List RawModel)
    (hp : L.Perm Lshuffled)
    (hnd : ((normalizeModels now L).map Model.id).Nodup) :
    hashModels (normalizeModels now L) = hashModels (normalizeModels now Lshuffled) := by
  have h1 : (normalizeModels now L).Perm (normalizeModels now Lshuffled) :=
    ((List.perm_insertionSort modelLe _).trans (hp.map _)).trans
      (List.perm_insertionSort modelLe _).symm
  rw [eq_of_perm_sorted_nodupKeys h1 (List.sorted_insertionSort modelLe _)
    (List.sorted_insertionSort modelLe _) hnd]

/-- C3 witness: the order-insensitivity of the normalized hash at a concrete
permuted pair. -/
theorem claim_C3_hash_order_insensitive_witness :
    (([RawModel.str "b", RawModel.str "a"] : List RawModel).Perm
        [RawModel.str "a", RawModel.str "b"]
      ∧ ((normalizeModels 3 [RawModel.str "b", RawModel.str "a"]).map
          Model.id).Nodup)
    ∧ hashModels (normalizeModels 3 [RawModel.str "b", RawModel.str "a"])
      = hashModels (normalizeModels 3 [RawModel.str "a", RawModel.str "b"]) :=
  ⟨⟨List.Perm.swap _ _ _, by decide⟩,
   claim_C3_hash_order_insensitive 3 _ _ (List.Perm.swap _ _ _) (by decide)⟩

/-- C3 counterexample: `fetchModelsNewapi` does not sort its mapped model
list, so two permuted upstream responses hash differently — the claim's
"on every fetchModels variant's output" fails for the newapi variant.  And
even through `normalizeModels`, two entries sharing an id but differing in
an attribute keep their relative (stable-sort) order, so a permutation with
duplicate ids also changes the hash — forcing the distinct-id proviso of the
amended claim. -/
theorem claim_C3_counterexample :
    (([RawModel.str "a", RawModel.str "b"] : List RawModel).Perm
        [RawModel.str "b", RawModel.str "a"]
    ∧ hashModels (fetchModelsNewapiMap "newapi" 0
          [RawModel.str "a", RawModel.str "b"])
      ≠ hashModels (fetchModelsNewapiMap "newapi" 0
          [RawModel.str "b", RawModel.str "a"]))
    ∧ hashModels (normalizeModels 0
          [RawModel.obj ⟨some "x", none, none, some "a", none, none, some 1,
            none, none, none⟩,
           RawModel.obj ⟨some "x", none, none, some "b", none, none, some 1,
            none, none, none⟩])
      ≠ hashModels (normalizeModels 0
          [RawModel.obj ⟨some "x", none, none, some "b", none, none, some 1,
            none, none, none⟩,
           RawModel.obj ⟨some "x", none, none, some "a", none, none, some 1,
            none, none, none⟩]) := by
  exact ⟨⟨List.Perm.swap _ _ _, by decide⟩, by decide⟩

/-- The envelope `encrypt key iv pt` with bit `i` of its 16-byte
authentication tag flipped, re-encoded exactly as `encrypt` assembles it. -/
def encryptWithFlippedTagBit (key : GcmKey) (iv : List Nat) (pt : String)
    (i : Nat) : String :=
  let ct := gcmXform key iv (strBytes pt)
  ⟨['v', '1', ':'] ++ b64enc (iv ++ flipBit i (gcmTag key iv ct) ++ ct)⟩

theorem splitCh_envelope (X : List Char) (hX : ':' ∉ X) :
    splitCh ':' ('v' :: '1' :: ':' :: X) = [['v', '1'], X] := by
  simp [splitCh, splitChAux, splitChAux_of_not_mem _ _ _ hX]

/-- C7: decrypting an `encrypt`-produced envelope whose authentication tag
has any single bit flipped fails closed with the tag-verification error (for
fixed key, nonce and ciphertext there is exactly one valid tag); and an
envelope whose version prefix is wrong or missing (any non-empty payload
whose first `':'`-segment is not `"v1"`) is rejected before any
decryption. -/
theorem claim_C7_decrypt_fail_closed :
    (∀ (key : GcmKey) (iv : List Nat) (pt : String) (i : Nat),
      iv.length = 12 → (∀ b ∈ iv, b < 256) → i < 128 →
      (∀ c ∈ pt.data, c.toNat < 256) →
      decrypt key (some (encryptWithFlippedTagBit key iv pt i))
        = .error "Unsupported state or unable to authenticate data")
    ∧ (∀ (key : GcmKey) (s : String), s.data ≠ [] →
        (splitCh ':' s.data).head? ≠ some ['v', '1'] →
        decrypt key (some s) = .error "Unsupported enc version") := by
  constructor
  · intro key iv pt i hlen hiv hi hpt
    set ct := gcmXform key iv (strBytes pt) with hct
    set tag' := flipBit i (gcmTag key iv ct) with htag
    have hctlt : ∀ x ∈ ct, x < 256 := by
      rw [hct]
      refine xorStream_lt key iv 0 _ ?_
      intro b hb
      simp only [strBytes, List.mem_map] at hb
      obtain ⟨c, hc, he⟩ := hb
      exact he ▸ hpt c hc
    have htaglt : ∀ x ∈ tag', x < 256 :=
      flipBit_lt _ _ (gcmTag_lt key iv ct)
    have htlen : tag'.length = 16 := by
      rw [htag, flipBit_length, gcmTag_length]
    have hblt : ∀ x ∈ iv ++ tag' ++ ct, x < 256 := by
      intro x hx
      rcases List.mem_append.mp hx with hx | hx
      · rcases List.mem_append.mp hx with hx | hx
        · exact hiv x hx
        · exact htaglt x hx
      · exact hctlt x hx
    have hrt : b64dec (b64enc (iv ++ tag' ++ ct)) = iv ++ tag' ++ ct :=
      b64_roundtrip _ hblt
    show decrypt key (some ⟨['v', '1', ':'] ++ b64enc (iv ++ tag' ++ ct)⟩)
        = .error "Unsupported state or unable to authenticate data"
    rw [decrypt]
    simp only [List.cons_append, List.nil_append]
    rw [show ('v' :: '1' :: ':' :: b64enc (iv ++ tag' ++ ct)).isEmpty = false
        from rfl]
    simp only [Bool.false_eq_true, if_false]
    rw [splitCh_envelope _ (b64enc_no_colon _)]
    simp only [ne_eq, not_true_eq_false, if_false, List.head?_cons]
    rw [hrt]
    have h12 : (iv ++ tag' ++ ct).take 12 = iv := by
      rw [List.append_assoc, List.take_left' hlen]
    have hdrop : (iv ++ tag' ++ ct).drop 12 = tag' ++ ct := by
      rw [List.append_assoc, List.drop_left' hlen]
    have h16 : ((iv ++ tag' ++ ct).drop 12).take 16 = tag' := by
      rw [hdrop, List.take_left' htlen]
    have h28 : (iv ++ tag' ++ ct).drop 28 = ct := by
      rw [List.drop_left' (by rw [List.length_append, hlen, htlen])]
    rw [h12, h16, h28]
    rw [if_neg]
    rw [htag]
    exact flipBit_ne i _ (by rw [gcmTag_length]; omega)
  · intro key s hne hv
    rw [decrypt]
    have hie : s.data.isEmpty = false := by
      cases hd : s.data with
      | nil => exact absurd hd hne
      | cons a l => rfl
    rw [hie]
    simp only [Bool.false_eq_true, if_false]
    rcases hsp : splitCh ':' s.data with _ | ⟨ver, rest⟩
    · exact absurd hsp (splitChAux_ne_nil ':' s.data [])
    · have hver : ver ≠ ['v', '1'] := by
        intro he
        rw [hsp, he] at hv
        exact hv rfl
      simp [hver]

/-- C7 witness: tag-bit tampering and a wrong version prefix, both rejected
at a concrete key, nonce and plaintext. -/
theorem claim_C7_decrypt_fail_closed_witness :
    (decrypt ⟨5⟩ (some (encryptWithFlippedTagBit ⟨5⟩
        [0, 1, 2, 3, 4, 5, 6, 7, 8, 9, 10, 11] "secret" 0))
      = .error "Unsupported state or unable to authenticate data")
    ∧ decrypt ⟨5⟩ (some "v2:abc") = .error "Unsupported enc version" :=
  ⟨claim_C7_decrypt_fail_closed.1 ⟨5⟩ [0, 1, 2, 3, 4, 5, 6, 7, 8, 9, 10, 11]
      "secret" 0 (by decide) (by decide) (by decide) (by decide),
   claim_C7_decrypt_fail_closed.2 ⟨5⟩ "v2:abc" (by decide) (by decide)⟩

/-- C4: when no prior snapshot with `errorMessage == null` exists for the
site, the first successful check writes its snapshot as a baseline and the
run reports `hasChanges = false` with a null diff, creates no `ModelDiff`
row and sends no notification — whatever the fetched model list contains.
(The single pair equation carries all of this: the new store keeps `diffs`
and `singleNotes` untouched and appends exactly the baseline snapshot.) -/
theorem claim_C4_first_check_baseline (key : GcmKey) (site : Site)
    (isManual skipNotification : Bool) (ck : CheckInOutcome)
    (models : List Model) (b : Billing) (st : Store) (pt : String)
    (hdec : decrypt key site.apiKeyEnc = .ok pt)
    (hm : shouldCheckModels site isManual = true)
    (hfirst : findLastSuccess site.id st.snaps = none) :
    checkSite key site isManual skipNotification ck (.ok models) b st
      = ({ st with
            snaps := st.snaps ++
              [{ id := st.nextId, siteId := site.id, modelsJson := models,
                 hash := hashModels models, errorMessage := none,
                 billingLimit :=
                   (if site.unlimitedQuota then (⟨none, none, none⟩ : Billing)
                    else b).limit,
                 billingUsage :=
                   (if site.unlimitedQuota then (⟨none, none, none⟩ : Billing)
                    else b).usage,
                 billingError :=
                   (if site.unlimitedQuota then (⟨none, none, none⟩ : Billing)
                    else b).error,
                 checkInSuccess :=
                   if shouldCheckIn site isManual then some ck.success else none,
                 checkInMessage :=
                   if shouldCheckIn site isManual then ck.message else none,
                 checkInQuota :=
                   if shouldCheckIn site isManual then ck.quota else none,
                 checkInError :=
                   if shouldCheckIn site isManual then ck.error else none }],
            nextId := st.nextId + 1 },
         .ok { ok := true, hasChanges := false, diff := none,
               siteName := site.name, checkInOnly := false,
               checkInChanged := shouldCheckIn site isManual,
               checkInResult :=
                 if shouldCheckIn site isManual then
                   some ⟨some ck.success, ck.message, ck.quota, ck.error⟩
                 else none }) := by
  rw [checkSite, hdec]
  simp only [hm, if_true, hfirst]
  by_cases hci : shouldCheckIn site isManual
  · simp [hci, checkInChangedFlag, hfirst]
  · simp [hci, checkInChangedFlag, hfirst]

/-- C4 witness: a first check over a non-empty fetched list, including prior
*error* snapshots in the store (they do not count as a baseline). -/
theorem claim_C4_first_check_baseline_witness :
    (decrypt ⟨0⟩ ((⟨1, "s", "other", none, false, none, false⟩ : Site)).apiKeyEnc
        = .ok ""
      ∧ shouldCheckModels ⟨1, "s", "other", none, false, none, false⟩ false
        = true
      ∧ findLastSuccess 1
          [⟨7, 1, [], "", some "HTTP 500", none, none, none, none, none, none,
            none⟩] = none)
    ∧ checkSite ⟨0⟩ ⟨1, "s", "other", none, false, none, false⟩ false false
        ⟨false, none, none, none⟩
        (.ok [⟨"m1", "model", "u", none, 3, none, none, none⟩,
              ⟨"m2", "model", "u", none, 4, none, none, none⟩])
        ⟨some 5, some 2, none⟩
        ⟨[⟨7, 1, [], "", some "HTTP 500", none, none, none, none, none, none,
            none⟩], [], [], 8⟩
      = ({ snaps := [⟨7, 1, [], "", some "HTTP 500", none, none, none, none,
              none, none, none⟩,
            ⟨8, 1, [⟨"m1", "model", "u", none, 3, none, none, none⟩,
              ⟨"m2", "model", "u", none, 4, none, none, none⟩],
              hashModels [⟨"m1", "model", "u", none, 3, none, none, none⟩,
                ⟨"m2", "model", "u", none, 4, none, none, none⟩],
              none, some 5, some 2, none, none, none, none, none⟩],
           diffs := [], singleNotes := [], nextId := 9 },
         .ok ⟨true, false, none, "s", false, false, none⟩) := by
  refine ⟨⟨rfl, rfl, rfl⟩, ?_⟩
  have h := claim_C4_first_check_baseline ⟨0⟩
    ⟨1, "s", "other", none, false, none, false⟩ false false
    ⟨false, none, none, none⟩
    [⟨"m1", "model", "u", none, 3, none, none, none⟩,
     ⟨"m2", "model", "u", none, 4, none, none, none⟩]
    ⟨some 5, some 2, none⟩
    ⟨[⟨7, 1, [], "", some "HTTP 500", none, none, none, none, none, none,
        none⟩], [], [], 8⟩ "" rfl rfl rfl
  rw [h]
  decide

/-- C6 (amended): a decryption failure on the site's stored API key
propagates out of `checkSite` untouched (nothing is written, the error
reaches the caller); but the two notifier entry points do NOT propagate it —
each catches the failure in an inner `try`/`catch` and returns normally,
silently skipping the send (`notifier.js` lines 66-74 and 219-227). -/
theorem claim_C6_decryption_error_paths :
    (∀ (key : GcmKey) (site : Site) (isManual skipNotification : Bool)
        (ck : CheckInOutcome) (fetchRes : Except String (List Model))
        (b : Billing) (st : Store) (e : String),
      decrypt key site.apiKeyEnc = .error e →
      checkSite key site isManual skipNotification ck fetchRes b st
        = (st, .error e))
    ∧ (∀ (key : GcmKey) (c : EmailConfig) (diff : DiffResult)
        (sendOutcome : Except String Unit) (emails : List String) (e : String),
      c.enabled = true → parseEmails c.notifyEmails = .ok emails →
      emails ≠ [] → decrypt key c.resendApiKeyEnc = .error e →
      sendModelChangeNotification key (some c) diff sendOutcome
        = .skippedDecryptFailure)
    ∧ (∀ (key : GcmKey) (c : EmailConfig) (siteChanges : List SiteChange)
        (failedSites : List FailedSite) (sendOutcome : Except String Unit)
        (emails : List String) (e : String),
      c.enabled = true → parseEmails c.notifyEmails = .ok emails →
      emails ≠ [] → decrypt key c.resendApiKeyEnc = .error e →
      sendAggregatedNotification key (some c) siteChanges failedSites
        sendOutcome = .skippedDecryptFailure) := by
  refine ⟨?_, ?_, ?_⟩
  · intro key site im sn ck f b st e h
    rw [checkSite, h]
  · intro key c diff so emails e hen hpe hne hde
    rw [sendModelChangeNotification]
    simp [hen, hpe, hne, hde]
  · intro key c sc fs so emails e hen hpe hne hde
    rw [sendAggregatedNotification]
    simp [hen, hpe, hne, hde]

/-- C6 witness: the amended behavior evaluated at a concrete corrupt
envelope. -/
theorem claim_C6_decryption_error_paths_witness :
    (decrypt ⟨0⟩ (some "corrupt") = .error "Unsupported enc version"
      ∧ parseEmails (some "ops@example.com") = .ok ["ops@example.com"])
    ∧ checkSite ⟨0⟩ ⟨1, "s", "other", some "corrupt", false, none, false⟩
        true false ⟨false, none, none, none⟩ (.ok []) ⟨none, none, none⟩
        ⟨[], [], [], 0⟩
      = (⟨[], [], [], 0⟩, .error "Unsupported enc version")
    ∧ sendModelChangeNotification ⟨0⟩
        (some ⟨true, some "corrupt", some "ops@example.com"⟩)
        ⟨[⟨"m", "model", "u", none, 0, none, none, none⟩], [], []⟩ (.ok ())
      = .skippedDecryptFailure :=
  ⟨⟨by decide, by decide⟩,
   claim_C6_decryption_error_paths.1 ⟨0⟩
     ⟨1, "s", "other", some "corrupt", false, none, false⟩ true false
     ⟨false, none, none, none⟩ (.ok []) ⟨none, none, none⟩ ⟨[], [], [], 0⟩
     "Unsupported enc version" (by decide),
   claim_C6_decryption_error_paths.2.1 ⟨0⟩
     ⟨true, some "corrupt", some "ops@example.com"⟩
     ⟨[⟨"m", "model", "u", none, 0, none, none, none⟩], [], []⟩ (.ok ())
     ["ops@example.com"] "Unsupported enc version" rfl (by decide)
     (by decide) (by decide)⟩

/-- C6 counterexample: the claim "a decryption failure propagates to the
caller and is never caught and ignored" is false at the cited notifier code:
with an enabled config, a non-empty recipient list and a credential whose
decryption fails, `sendModelChangeNotification` returns normally — the
failure is caught and the send silently skipped, exactly as if no secret
were configured. -/
theorem claim_C6_counterexample :
    decrypt ⟨0⟩ (some "corrupt") = .error "Unsupported enc version"
    ∧ sendModelChangeNotification ⟨0⟩
        (some ⟨true, some "corrupt", some "a@b.c, d@e.f"⟩)
        ⟨[⟨"m", "model", "u", none, 0, none, none, none⟩], [], []⟩ (.ok ())
      = .skippedDecryptFailure
    ∧ sendAggregatedNotification ⟨0⟩
        (some ⟨true, some "corrupt", some "a@b.c, d@e.f"⟩)
        [⟨"s", ⟨[⟨"m", "model", "u", none, 0, none, none, none⟩], [], []⟩⟩]
        [] (.ok ())
      = .skippedDecryptFailure := by
  refine ⟨by decide, by decide, by decide⟩

/-- C5: in a sequential global batch over sites A, B, C where B's model
fetch throws (and B's resolved mode does fetch models) while A and C's
checks succeed, all three sites are still checked — each writes its snapshot
row — B is recorded as exactly the one `failedSites` entry carrying its
error message, and exactly one aggregated notification is dispatched,
containing the collected changed-site diffs together with B's failure;
and a batch that collects no changes and no failures dispatches nothing. -/
theorem claim_C5_batch_failure_isolation :
    (∀ (key : GcmKey) (A B C : BatchInput) (st : Store)
        (ptA ptB ptC : String) (mA mC : List Model) (eB : String),
      decrypt key A.site.apiKeyEnc = .ok ptA → A.fetchRes = .ok mA →
      decrypt key B.site.apiKeyEnc = .ok ptB → B.fetchRes = .error eB →
      shouldCheckModels B.site false = true →
      decrypt key C.site.apiKeyEnc = .ok ptC → C.fetchRes = .ok mC →
      (runGlobalBatch key [A, B, C] st).1.snaps.map (fun s => s.siteId)
        = st.snaps.map (fun s => s.siteId)
            ++ [A.site.id, B.site.id, C.site.id]
      ∧ (runGlobalBatch key [A, B, C] st).2.2.1 = [⟨B.site.name, eB⟩]
      ∧ (runGlobalBatch key [A, B, C] st).2.2.2
        = [((runGlobalBatch key [A, B, C] st).2.1, [⟨B.site.name, eB⟩])])
    ∧ (∀ (key : GcmKey) (inputs : List BatchInput) (st : Store),
      (runGlobalBatch key inputs st).2.1 = [] →
      (runGlobalBatch key inputs st).2.2.1 = [] →
      (runGlobalBatch key inputs st).2.2.2 = []) := by
  constructor
  · intro key A B C st ptA ptB ptC mA mC eB hdA hfA hdB hfB hmB hdC hfC
    obtain ⟨st1, r1, he1, hsnap1⟩ :=
      checkSite_ok_shape key A.site false true A.ck mA A.billing st ptA hdA
    obtain ⟨st2, he2, hsnap2⟩ :=
      checkSite_error_shape key B.site false true B.ck eB B.billing st1 ptB
        hdB hmB
    obtain ⟨st3, r3, he3, hsnap3⟩ :=
      checkSite_ok_shape key C.site false true C.ck mC C.billing st2 ptC hdC
    simp only [runGlobalBatch, List.foldl_cons, List.foldl_nil, hfA, hfB, hfC,
      he1, he2, he3]
    refine ⟨?_, ?_, ?_⟩
    · simp only [hsnap3, hsnap2, hsnap1, List.append_assoc]
      rfl
    · simp
    · simp
  · intro key inputs st h1 h2
    simp only [runGlobalBatch] at h1 h2 ⊢
    rw [h1, h2]
    simp

/-- C5 witness: a concrete three-site batch with B's fetch throwing. -/
theorem claim_C5_batch_failure_isolation_witness :
    ((runGlobalBatch ⟨0⟩
        [⟨⟨1, "A", "other", none, false, none, true⟩,
          ⟨false, none, none, none⟩,
          .ok [⟨"m1", "model", "u", none, 3, none, none, none⟩],
          ⟨none, none, none⟩⟩,
         ⟨⟨2, "B", "other", none, false, none, true⟩,
          ⟨false, none, none, none⟩, .error "HTTP 500: upstream down",
          ⟨none, none, none⟩⟩,
         ⟨⟨3, "C", "other", none, false, none, true⟩,
          ⟨false, none, none, none⟩,
          .ok [⟨"m2", "model", "u", none, 4, none, none, none⟩],
          ⟨none, none, none⟩⟩] ⟨[], [], [], 0⟩).1.snaps.map
        (fun s => s.siteId) = [1, 2, 3]
      ∧ (runGlobalBatch ⟨0⟩
        [⟨⟨1, "A", "other", none, false, none, true⟩,
          ⟨false, none, none, none⟩,
          .ok [⟨"m1", "model", "u", none, 3, none, none, none⟩],
          ⟨none, none, none⟩⟩,
         ⟨⟨2, "B", "other", none, false, none, true⟩,
          ⟨false, none, none, none⟩, .error "HTTP 500: upstream down",
          ⟨none, none, none⟩⟩,
         ⟨⟨3, "C", "other", none, false, none, true⟩,
          ⟨false, none, none, none⟩,
          .ok [⟨"m2", "model", "u", none, 4, none, none, none⟩],
          ⟨none, none, none⟩⟩] ⟨[], [], [], 0⟩).2.2.1
        = [⟨"B", "HTTP 500: upstream down"⟩])
    ∧ (runGlobalBatch ⟨0⟩ [] ⟨[], [], [], 0⟩).2.2.2 = [] := by
  have h := claim_C5_batch_failure_isolation.1 ⟨0⟩
    ⟨⟨1, "A", "other", none, false, none, true⟩, ⟨false, none, none, none⟩,
      .ok [⟨"m1", "model", "u", none, 3, none, none, none⟩],
      ⟨none, none, none⟩⟩
    ⟨⟨2, "B", "other", none, false, none, true⟩, ⟨false, none, none, none⟩,
      .error "HTTP 500: upstream down", ⟨none, none, none⟩⟩
    ⟨⟨3, "C", "other", none, false, none, true⟩, ⟨false, none, none, none⟩,
      .ok [⟨"m2", "model", "u", none, 4, none, none, none⟩],
      ⟨none, none, none⟩⟩
    ⟨[], [], [], 0⟩ "" "" ""
    [⟨"m1", "model", "u", none, 3, none, none, none⟩]
    [⟨"m2", "model", "u", none, 4, none, none, none⟩]
    "HTTP 500: upstream down" rfl rfl rfl rfl rfl rfl rfl
  exact ⟨⟨h.1, h.2.1⟩,
    claim_C5_batch_failure_isolation.2 ⟨0⟩ [] ⟨[], [], [], 0⟩ rfl rfl⟩

/-- C8: for a newapi site reporting remaining quota `q` and used quota `u` in
provider units, the billing fetch reports usage `u / 500000` and limit
`(q + u) / 500000` currency units; in particular `q = 1000000, u = 250000`
yields usage $0.50 and total limit $2.50 (limit = balance + used, not
remaining). -/
theorem claim_C8_newapi_billing_conversion (q u : ℕ) :
    fetchUserInfoNewapiQuota "newapi" (some (q : ℚ)) (some (u : ℚ))
      = (((q : ℚ) + u) / 500000, (u : ℚ) / 500000)
    ∧ fetchUserInfoNewapiQuota "newapi" (some 1000000) (some 250000)
      = (5 / 2, 1 / 2) := by
  constructor
  · simp [fetchUserInfoNewapiQuota, newapiConversionRatio, div_add_div_same]
  · norm_num [fetchUserInfoNewapiQuota, newapiConversionRatio]

/-- C9: a manual trigger always attempts the model fetch
(`shouldCheckModels = true`), and attempts check-in exactly when the site is
the check-in-capable variant (veloera) with check-in enabled — the configured
`checkInMode` plays no role for manual triggers. -/
theorem claim_C9_manual_trigger_gating (site : Site) :
    shouldCheckModels site true = true
    ∧ shouldCheckIn site true = (site.apiType == "veloera" && site.enableCheckIn) := by
  exact ⟨rfl, rfl⟩

/-- C10: for every falsy envelope (`null`/`undefined`, modelled `none`, or
the empty string) `decrypt` returns the empty string without raising — the
one spot where the otherwise fail-closed codec silently yields an empty
secret. -/
theorem claim_C10_decrypt_falsy_envelope (key : GcmKey) :
    decrypt key none = .ok "" ∧ decrypt key (some "") = .ok "" := by
  exact ⟨rfl, rfl⟩

end SimpleHub
